import Mathlib

/-!
Verification of the SeaweedFS mount-layer slice: the filer `Entry` model
(weed/filer/entry.go), its xattr quota accessors and protobuf conversions,
and the FUSE `Symlink`/`Readlink` operations (weed/mount/weedfs_symlink.go).

Byte strings (Go `[]byte`) are modelled as `List Nat` of byte values, Go
`string` as Lean `String`, `uint64`/`uint32` as `Nat` (with explicit `% 2 ^ 64`
where a conversion from a signed value can wrap), and `int64` as `Int`
restricted by hypotheses to the signed 64-bit range where it matters.

Functions of the repository that are outside the provided sources
(`util.ParseBytes`, `util.BytesToHumanReadable`, `filer.TotalSize`, the inode
table `InodeToPath`, the meta cache, `checkName`, `maybeLoadEntry`) are
modelled from the specification and carry a doc comment saying so;
`strconv.Atoi` is modelled from the documented Go standard-library semantics.
-/

namespace Seaweed

/-! Decimal digit machinery shared by the textual xattr encodings. -/

/-- Little-endian base-10 digits, with explicit fuel so that the definition is
structurally recursive; the fuel is an upper bound on the argument. -/
def digitsLEAux : Nat → Nat → List Nat
  | 0, _ => []
  | _ + 1, 0 => []
  | fuel + 1, n + 1 => ((n + 1) % 10) :: digitsLEAux fuel ((n + 1) / 10)

/-- Little-endian base-10 digits of `n` (empty for `0`). -/
def digitsLE (n : Nat) : List Nat := digitsLEAux n n

/-- Numeric value of a little-endian digit list. -/
def ofDigitsLE : List Nat → Nat
  | [] => 0
  | d :: ds => d + 10 * ofDigitsLE ds

theorem ofDigitsLE_digitsLEAux : ∀ fuel n : Nat, n ≤ fuel →
    ofDigitsLE (digitsLEAux fuel n) = n
  | 0, 0, _ => rfl
  | 0, _ + 1, h => absurd h (by omega)
  | _ + 1, 0, _ => rfl
  | fuel + 1, n + 1, h => by
    have hlt : (n + 1) / 10 < n + 1 := Nat.div_lt_self (Nat.succ_pos n) (by omega)
    have hdiv : (n + 1) / 10 ≤ fuel := by omega
    simp only [digitsLEAux, ofDigitsLE,
      ofDigitsLE_digitsLEAux fuel ((n + 1) / 10) hdiv]
    omega

theorem ofDigitsLE_digitsLE (n : Nat) : ofDigitsLE (digitsLE n) = n :=
  ofDigitsLE_digitsLEAux n n (Nat.le_refl n)

theorem digitsLEAux_mem_lt : ∀ fuel n d : Nat, d ∈ digitsLEAux fuel n → d < 10
  | 0, _, _, h => absurd h (by simp [digitsLEAux])
  | _ + 1, 0, _, h => absurd h (by simp [digitsLEAux])
  | fuel + 1, n + 1, d, h => by
    simp only [digitsLEAux, List.mem_cons] at h
    rcases h with h | h
    · omega
    · exact digitsLEAux_mem_lt fuel ((n + 1) / 10) d h

theorem digitsLE_mem_lt (n d : Nat) (h : d ∈ digitsLE n) : d < 10 :=
  digitsLEAux_mem_lt n n d h

theorem digitsLE_ne_nil (n : Nat) (h : n ≠ 0) : digitsLE n ≠ [] := by
  cases n with
  | zero => exact absurd rfl h
  | succ m => simp [digitsLE, digitsLEAux]

/-- ASCII decimal rendering of a natural number (the behaviour of Go
`fmt.Sprintf "%d"` on a nonnegative value), as a byte list. -/
def formatDecimal (n : Nat) : List Nat :=
  if n = 0 then [48] else (digitsLE n).reverse.map (fun d => d + 48)

/-- Numeric value of a big-endian ASCII digit list. -/
def decodeDigits (s : List Nat) : Nat :=
  ofDigitsLE ((s.map (fun c => c - 48)).reverse)

/-- Whether a byte is an ASCII decimal digit. -/
def isAsciiDigit (c : Nat) : Bool := decide (48 ≤ c ∧ c ≤ 57)

/-- Parse a byte list as an unsigned ASCII decimal number; fails on empty
input or on any non-digit byte. -/
def parseDecimal (s : List Nat) : Option Nat :=
  if s = [] then none
  else if s.all isAsciiDigit then some (decodeDigits s)
  else none

theorem decodeDigits_formatDecimal (n : Nat) : decodeDigits (formatDecimal n) = n := by
  unfold formatDecimal
  split
  · subst n
    rfl
  · unfold decodeDigits
    rw [List.map_map]
    have h : ((fun c => c - 48) ∘ fun d : Nat => d + 48) = id := by
      funext d
      simp
    rw [h, List.map_id, List.reverse_reverse, ofDigitsLE_digitsLE]

theorem formatDecimal_all_digits (n : Nat) : (formatDecimal n).all isAsciiDigit = true := by
  unfold formatDecimal
  split
  · rfl
  · rw [List.all_eq_true]
    intro c hc
    rw [List.mem_map] at hc
    obtain ⟨d, hd, rfl⟩ := hc
    rw [List.mem_reverse] at hd
    have := digitsLE_mem_lt n d hd
    simp only [isAsciiDigit, decide_eq_true_eq]
    omega

theorem formatDecimal_ne_nil (n : Nat) : formatDecimal n ≠ [] := by
  unfold formatDecimal
  split
  · simp
  · simp [digitsLE_ne_nil n (by assumption)]

theorem parseDecimal_formatDecimal (n : Nat) : parseDecimal (formatDecimal n) = some n := by
  unfold parseDecimal
  rw [if_neg (formatDecimal_ne_nil n), if_pos (formatDecimal_all_digits n),
    decodeDigits_formatDecimal]

/-- Modelled from the spec: `util.BytesToHumanReadable` (weed/util, not in the
provided sources) renders a byte count as "human-readable byte-size text"
(§6).  The spec requires the xattr `set`-then-`get` round trip to be exact
(§8), so the model renders the exact decimal digit string followed by the
ASCII byte unit marker `B` (0x42). -/
def BytesToHumanReadable (b : Nat) : List Nat := formatDecimal b ++ [66]

/-- Modelled from the spec: `util.ParseBytes` (weed/util, not in the provided
sources) parses human-readable byte-size text, failing on malformed input. -/
def ParseBytes (s : List Nat) : Option Nat :=
  match s.getLast? with
  | some 66 => parseDecimal s.dropLast
  | _ => none

theorem ParseBytes_BytesToHumanReadable (n : Nat) :
    ParseBytes (BytesToHumanReadable n) = some n := by
  unfold ParseBytes BytesToHumanReadable
  simp [parseDecimal_formatDecimal]

/-- Error component of the modelled Go `strconv.Atoi`. -/
inductive GoError where
  | ok
  | badInput
  | outOfRange
deriving DecidableEq

/-- Modelled from the documented semantics of Go `strconv.Atoi` (standard
library, used at weed/filer/entry.go:103,144): an optional sign followed by
decimal digits.  A syntax error yields value 0; a value outside the signed
64-bit range yields the clamped boundary value together with a range error. -/
def goAtoi (s : List Nat) : Int × GoError :=
  let neg : Bool := s.head? == some 45
  let ds : List Nat := if s.head? == some 43 || s.head? == some 45 then s.tail else s
  if ds = [] then (0, GoError.badInput)
  else if ds.all isAsciiDigit then
    let v : Int := if neg then -(decodeDigits ds : Int) else (decodeDigits ds : Int)
    if v > 2 ^ 63 - 1 then (2 ^ 63 - 1, GoError.outOfRange)
    else if v < -(2 ^ 63) then (-(2 ^ 63), GoError.outOfRange)
    else (v, GoError.ok)
  else (0, GoError.badInput)

theorem goAtoi_formatDecimal (n : Nat) (h : n < 2 ^ 63) :
    goAtoi (formatDecimal n) = ((n : Int), GoError.ok) := by
  obtain ⟨c, cs, hcons⟩ : ∃ c cs, formatDecimal n = c :: cs := by
    cases hfd : formatDecimal n with
    | nil => exact absurd hfd (formatDecimal_ne_nil n)
    | cons c cs => exact ⟨c, cs, rfl⟩
  have hall := formatDecimal_all_digits n
  have hdec := decodeDigits_formatDecimal n
  rw [hcons] at hall hdec
  have hc : 48 ≤ c ∧ c ≤ 57 := by
    rw [List.all_cons, Bool.and_eq_true] at hall
    simpa [isAsciiDigit] using hall.1
  have hc43 : c ≠ 43 := by omega
  have hc45 : c ≠ 45 := by omega
  unfold goAtoi
  rw [hcons]
  simp only [List.head?_cons, List.tail_cons]
  rw [show ((some c == some 43 : Bool) || (some c == some 45 : Bool)) = false by
    simp [hc43, hc45]]
  rw [show (some c == some 45 : Bool) = false by simp [hc45]]
  simp only [if_false, Bool.false_eq_true, reduceIte]
  rw [if_neg (by simp), if_pos hall, hdec]
  have h1 : ¬ ((n : Int) > 2 ^ 63 - 1) := by
    push_neg
    omega
  have h2 : ¬ ((n : Int) < -(2 ^ 63)) := by
    push_neg
    omega
  rw [if_neg h1, if_neg h2]

/-! Association lists, modelling Go maps with string keys and the meta-cache
and remote stores keyed by path. -/

/-- Lookup in an association list (Go map read; missing key gives `none`). -/
def lookupAssoc {α : Type} : List (String × α) → String → Option α
  | [], _ => none
  | (k2, v) :: rest, k => if k2 = k then some v else lookupAssoc rest k

/-- Insert or overwrite a key in an association list (Go map write). -/
def insertAssoc {α : Type} : List (String × α) → String → α → List (String × α)
  | [], k, v => [(k, v)]
  | (k2, v2) :: rest, k, v =>
    if k2 = k then (k, v) :: rest else (k2, v2) :: insertAssoc rest k v

theorem lookupAssoc_insertAssoc_self {α : Type} (l : List (String × α)) (k : String) (v : α) :
    lookupAssoc (insertAssoc l k v) k = some v := by
  induction l with
  | nil => simp [insertAssoc, lookupAssoc]
  | cons hd tl ih =>
    obtain ⟨k2, v2⟩ := hd
    unfold insertAssoc
    split
    · simp [lookupAssoc]
    · unfold lookupAssoc
      rw [if_neg (by assumption)]
      exact ih

/-! Data model: the wire (protobuf) records and the in-memory `Entry`
(weed/filer/entry.go). -/

/-- Modelled from the spec: one content chunk of `filer_pb` (generated
protobuf code, not in the provided sources) — "each chunk = backend location +
byte range" (§3). -/
structure FileChunk where
  FileId : String
  Offset : Int
  Size : Nat
deriving DecidableEq

/-- Modelled from the spec: the remote-storage indirection record of
`filer_pb` (§3, "optional pointer to an entry stored in a different
backend"), with the wire fields of the remote form. -/
structure RemoteEntry where
  StorageName : String
  LastLocalSyncTsNs : Int
  RemoteETag : String
  RemoteMtime : Int
  RemoteSize : Int
deriving DecidableEq

/-- Symlink marker bit of Go `os.FileMode` (`os.ModeSymlink = 1 << 27`). -/
def ModeSymlink : Nat := 2 ^ 27

/-- Directory marker bit of Go `os.FileMode` (`os.ModeDir = 1 << 31`). -/
def ModeDir : Nat := 2 ^ 31

/-- Modelled from the spec: the `filer_pb.FuseAttributes` wire record (not in
the provided sources); fields per the attribute list of §3 and the wire form
of §6.  Times are unix seconds. -/
structure FuseAttributes where
  Mtime : Int
  Crtime : Int
  FileMode : Nat
  Uid : Nat
  Gid : Nat
  Mime : String
  TtlSec : Int
  UserName : String
  GroupName : List String
  SymlinkTarget : String
  Md5 : List Nat
  FileSize : Nat
  Rdev : Nat
  Inode : Nat
deriving DecidableEq

/-- Zero value of `FuseAttributes` (Go `&filer_pb.FuseAttributes{}`). -/
def FuseAttributes.zero : FuseAttributes :=
  { Mtime := 0, Crtime := 0, FileMode := 0, Uid := 0, Gid := 0, Mime := "",
    TtlSec := 0, UserName := "", GroupName := [], SymlinkTarget := "",
    Md5 := [], FileSize := 0, Rdev := 0, Inode := 0 }

/-- Modelled from the spec: the `filer_pb.Entry` wire record (not in the
provided sources); fields per the wire form of §6 as used in
weed/filer/entry.go.  Pointer-valued fields are `Option`. -/
structure PbEntry where
  Name : String
  IsDirectory : Bool
  Attributes : Option FuseAttributes
  Chunks : List FileChunk
  Extended : Option (List (String × List Nat))
  HardLinkId : List Nat
  HardLinkCounter : Int
  Content : List Nat
  RemoteEntry : Option RemoteEntry
  Quota : Int
deriving DecidableEq

/-- Zero value of `PbEntry` (Go `&filer_pb.Entry{}`). -/
def PbEntry.zero : PbEntry :=
  { Name := "", IsDirectory := false, Attributes := none, Chunks := [],
    Extended := none, HardLinkId := [], HardLinkCounter := 0, Content := [],
    RemoteEntry := none, Quota := 0 }

/-- Modelled from the spec: `filer_pb.FullEntry` (not in the provided
sources): a directory together with a wire entry. -/
structure FullEntry where
  Dir : String
  Entry : Option PbEntry
deriving DecidableEq

/-- In-memory attributes (weed/filer/entry.go, `type Attr`).  `time.Time` is
modelled as unix seconds (`Int`), `os.FileMode` as its `uint32` bit set. -/
structure Attr where
  Mtime : Int
  Crtime : Int
  Mode : Nat
  Uid : Nat
  Gid : Nat
  Mime : String
  TtlSec : Int
  UserName : String
  GroupNames : List String
  SymlinkTarget : String
  Md5 : List Nat
  FileSize : Nat
  Rdev : Nat
  Inode : Nat
deriving DecidableEq

/-- Zero value of `Attr`. -/
def Attr.zero : Attr :=
  { Mtime := 0, Crtime := 0, Mode := 0, Uid := 0, Gid := 0, Mime := "",
    TtlSec := 0, UserName := "", GroupNames := [], SymlinkTarget := "",
    Md5 := [], FileSize := 0, Rdev := 0, Inode := 0 }

/-- Go `func (attr Attr) IsDirectory() bool { return attr.Mode&os.ModeDir > 0 }`
(weed/filer/entry.go:31-33). -/
def Attr.IsDirectory (attr : Attr) : Bool := attr.Mode &&& ModeDir > 0

/-- In-memory filesystem object (weed/filer/entry.go, `type Entry`).  The
embedded `util.FullPath` (a Go string type) is the `FullPath` field; the
embedded `Attr` is the `Attr` field; `HardLinkId` (a `[]byte` type) is a byte
list; Go's nil-able `Extended` map is `Option` of an association list. -/
structure Entry where
  FullPath : String
  Attr : Attr
  Extended : Option (List (String × List Nat))
  Chunks : List FileChunk
  HardLinkId : List Nat
  HardLinkCounter : Int
  Content : List Nat
  Remote : Option RemoteEntry
  Quota : Int
deriving DecidableEq

/-- Zero value of `Entry` (Go `&Entry{}`). -/
def Entry.zero : Entry :=
  { FullPath := "", Attr := Attr.zero, Extended := none, Chunks := [],
    HardLinkId := [], HardLinkCounter := 0, Content := [], Remote := none,
    Quota := 0 }

/-- Modelled from the spec: `filer.TotalSize` (weed/filer/filechunks.go, not
in the provided sources) — the total size of a chunk list, per the spec's
"sum of chunk sizes" (§3 Invariants). -/
def TotalSize (chunks : List FileChunk) : Nat := (chunks.map FileChunk.Size).sum

/-- Go `maxUint64` (weed/filer/entry.go:228-233). -/
def maxUint64 (x y : Nat) : Nat := if x > y then x else y

/-- Go `func (entry *Entry) Size() uint64` (weed/filer/entry.go:61-63). -/
def Entry.Size (entry : Entry) : Nat :=
  maxUint64 (maxUint64 (TotalSize entry.Chunks) entry.Attr.FileSize)
    entry.Content.length

/-- Reads `entry.Extended[key]` as Go does: a nil map or a missing key gives
the empty byte string. -/
def Entry.xattrVal (entry : Entry) (key : String) : List Nat :=
  (lookupAssoc (entry.Extended.getD []) key).getD []

/-- Go `func (entry *Entry) GetXAttrSize() uint64` (weed/filer/entry.go:65-76).
The key is `XATTR_PREFIX + Size_Key = "xattr-size"`; on a decode failure the
code logs and returns 0. -/
def Entry.GetXAttrSize (entry : Entry) : Nat :=
  let val := entry.xattrVal "xattr-size"
  if val.length = 0 then 0
  else
    match ParseBytes val with
    | none => 0
    | some b => b

/-- Go `func (entry *Entry) SetXAttrSize(b int64)` (weed/filer/entry.go:78-86):
clamps a negative input to zero, lazily allocates the map, stores
`BytesToHumanReadable(uint64(b))` under `"xattr-size"`. -/
def Entry.SetXAttrSize (entry : Entry) (b : Int) : Entry :=
  let b := if b < 0 then 0 else b
  let m := insertAssoc (entry.Extended.getD []) "xattr-size" (BytesToHumanReadable b.toNat)
  { entry with Extended := some m }

/-- Go `func (entry *Entry) SetXAttrSizeQuota(b int64)`
(weed/filer/entry.go:88-96); key `"xattr-quota-size"`. -/
def Entry.SetXAttrSizeQuota (entry : Entry) (b : Int) : Entry :=
  let b := if b < 0 then 0 else b
  let m := insertAssoc (entry.Extended.getD []) "xattr-quota-size" (BytesToHumanReadable b.toNat)
  { entry with Extended := some m }

/-- Go `func (entry *Entry) GetXAttrInodeCount() uint64`
(weed/filer/entry.go:98-105): `strconv.Atoi` with the error discarded, then
`uint64(b)` (conversion modulo `2 ^ 64`); key `"xattr-inode"`. -/
def Entry.GetXAttrInodeCount (entry : Entry) : Nat :=
  let val := entry.xattrVal "xattr-inode"
  if val.length = 0 then 0
  else ((goAtoi val).1 % (2 ^ 64 : Int)).toNat

/-- Go `func (entry *Entry) SetXAttrInodeCount(b int64)`
(weed/filer/entry.go:107-115): clamps a negative input to zero, stores
`fmt.Sprintf("%d", b)` under `"xattr-inode"`. -/
def Entry.SetXAttrInodeCount (entry : Entry) (b : Int) : Entry :=
  let b := if b < 0 then 0 else b
  let m := insertAssoc (entry.Extended.getD []) "xattr-inode" (formatDecimal b.toNat)
  { entry with Extended := some m }

/-- Go `func (entry *Entry) SetXAttrInodeCountQuota(b int64)`
(weed/filer/entry.go:116-124); key `"xattr-quota-inode"`. -/
def Entry.SetXAttrInodeCountQuota (entry : Entry) (b : Int) : Entry :=
  let b := if b < 0 then 0 else b
  let m := insertAssoc (entry.Extended.getD []) "xattr-quota-inode" (formatDecimal b.toNat)
  { entry with Extended := some m }

/-- Go `func (entry *Entry) GetXAttrSizeQuota() uint64`
(weed/filer/entry.go:126-137); key `"xattr-quota-size"`. -/
def Entry.GetXAttrSizeQuota (entry : Entry) : Nat :=
  let val := entry.xattrVal "xattr-quota-size"
  if val.length = 0 then 0
  else
    match ParseBytes val with
    | none => 0
    | some b => b

/-- Go `func (entry *Entry) GetXAttrInodeQuota() uint64`
(weed/filer/entry.go:139-146); key `"xattr-quota-inode"`. -/
def Entry.GetXAttrInodeQuota (entry : Entry) : Nat :=
  let val := entry.xattrVal "xattr-quota-inode"
  if val.length = 0 then 0
  else ((goAtoi val).1 % (2 ^ 64 : Int)).toNat

/-- Go `func (entry *Entry) Timestamp() time.Time`
(weed/filer/entry.go:148-154). -/
def Entry.Timestamp (entry : Entry) : Int :=
  if entry.Attr.IsDirectory then entry.Attr.Crtime else entry.Attr.Mtime

/-- Go `func (entry *Entry) ShallowClone() *Entry`
(weed/filer/entry.go:156-172).  The nil-able receiver is `Option Entry`. -/
def Entry.ShallowClone : Option Entry → Option Entry
  | none => none
  | some entry =>
    some { FullPath := entry.FullPath, Attr := entry.Attr,
           Chunks := entry.Chunks, Extended := entry.Extended,
           HardLinkId := entry.HardLinkId,
           HardLinkCounter := entry.HardLinkCounter,
           Content := entry.Content, Remote := entry.Remote,
           Quota := entry.Quota }

/-! Path helpers of `util.FullPath` and the protobuf conversions. -/

/-- Modelled from the spec: `util.NewFullPath`/`util.FullPath.Child`
(weed/util, not in the provided sources) join a directory and a name into a
full path. -/
def NewFullPath (dir name : String) : String :=
  if dir = "/" then "/" ++ name else dir ++ "/" ++ name

/-- Modelled from the spec: `util.FullPath.Name` (weed/util, not in the
provided sources) — the component after the last slash. -/
def FullPathName (p : String) : String :=
  ⟨(p.data.reverse.takeWhile (fun c => c != '/')).reverse⟩

/-- Modelled from the spec: `util.FullPath.DirAndName` (weed/util, not in the
provided sources) — split a full path into the part before the last slash
(the filesystem root when that part is empty) and the part after it. -/
def DirAndName (p : String) : String × String :=
  let name := (p.data.reverse.takeWhile (fun c => c != '/')).reverse
  let dir := (p.data.reverse.drop (name.length + 1)).reverse
  (if dir = [] then "/" else ⟨dir⟩, ⟨name⟩)

/-- Modelled from the spec: `filer.EntryAttributeToPb`
(weed/filer/entry_codec.go, not in the provided sources) — "every field above
has an explicit mapping" (§4.1); each attribute field is copied to its wire
counterpart. -/
def EntryAttributeToPb (entry : Entry) : FuseAttributes :=
  { Mtime := entry.Attr.Mtime, Crtime := entry.Attr.Crtime,
    FileMode := entry.Attr.Mode, Uid := entry.Attr.Uid,
    Gid := entry.Attr.Gid, Mime := entry.Attr.Mime,
    TtlSec := entry.Attr.TtlSec, UserName := entry.Attr.UserName,
    GroupName := entry.Attr.GroupNames,
    SymlinkTarget := entry.Attr.SymlinkTarget, Md5 := entry.Attr.Md5,
    FileSize := entry.Attr.FileSize, Rdev := entry.Attr.Rdev,
    Inode := entry.Attr.Inode }

/-- Modelled from the spec: `filer.PbToEntryAttribute`
(weed/filer/entry_codec.go, not in the provided sources) — the inverse field
mapping; Go dereferences the attributes pointer, the zero record stands for
the absent case. -/
def PbToEntryAttribute (attributes : Option FuseAttributes) : Attr :=
  let t := attributes.getD FuseAttributes.zero
  { Mtime := t.Mtime, Crtime := t.Crtime, Mode := t.FileMode, Uid := t.Uid,
    Gid := t.Gid, Mime := t.Mime, TtlSec := t.TtlSec,
    UserName := t.UserName, GroupNames := t.GroupName,
    SymlinkTarget := t.SymlinkTarget, Md5 := t.Md5, FileSize := t.FileSize,
    Rdev := t.Rdev, Inode := t.Inode }

/-- Go `func (entry *Entry) ToExistingProtoEntry(message *filer_pb.Entry)`
(weed/filer/entry.go:184-197): a nil receiver returns with the message
untouched; otherwise every listed field of the message is overwritten. -/
def Entry.ToExistingProtoEntry : Option Entry → PbEntry → PbEntry
  | none, message => message
  | some entry, message =>
    { message with
      IsDirectory := entry.Attr.IsDirectory,
      Attributes := some (EntryAttributeToPb entry),
      Chunks := entry.Chunks,
      Extended := entry.Extended,
      HardLinkId := entry.HardLinkId,
      HardLinkCounter := entry.HardLinkCounter,
      Content := entry.Content,
      RemoteEntry := entry.Remote,
      Quota := entry.Quota }

/-- Go `func (entry *Entry) ToProtoEntry() *filer_pb.Entry`
(weed/filer/entry.go:174-182): nil receiver gives nil; otherwise a fresh
message named after the path's last component is filled in. -/
def Entry.ToProtoEntry : Option Entry → Option PbEntry
  | none => none
  | some entry =>
    some (Entry.ToExistingProtoEntry (some entry)
      { PbEntry.zero with Name := FullPathName entry.FullPath })

/-- Go `func FromPbEntryToExistingEntry(message *filer_pb.Entry, fsEntry *Entry)`
(weed/filer/entry.go:199-208), returning the mutated `fsEntry`. -/
def FromPbEntryToExistingEntry (message : PbEntry) (fsEntry : Entry) : Entry :=
  { fsEntry with
    Attr := PbToEntryAttribute message.Attributes,
    Chunks := message.Chunks,
    Extended := message.Extended,
    HardLinkId := message.HardLinkId,
    HardLinkCounter := message.HardLinkCounter,
    Content := message.Content,
    Remote := message.RemoteEntry,
    Quota := message.Quota }

/-- Go `func (entry *Entry) ToProtoFullEntry() *filer_pb.FullEntry`
(weed/filer/entry.go:210-219): nil receiver gives nil. -/
def Entry.ToProtoFullEntry : Option Entry → Option FullEntry
  | none => none
  | some entry =>
    some { Dir := (DirAndName entry.FullPath).1,
           Entry := Entry.ToProtoEntry (some entry) }

/-- Go `func FromPbEntry(dir string, entry *filer_pb.Entry) *Entry`
(weed/filer/entry.go:221-226). -/
def FromPbEntry (dir : String) (entry : PbEntry) : Entry :=
  FromPbEntryToExistingEntry entry
    { Entry.zero with FullPath := NewFullPath dir entry.Name }

/-! Mount layer (weed/mount/weedfs_symlink.go) and the spec-modelled
components it uses. -/

/-- FUSE status codes used by this slice (`fuse.Status` values). -/
inductive Status where
  | OK
  | EIO
  | EINVAL
  | ENOSPC
  | ENOENT
deriving DecidableEq

/-- Modelled from the spec: InodeEntry, "the inode table's record: synthetic
inode number (uint64), path, and a generation/creation-time stamp" (§3). -/
structure InodeEntry where
  inode : Nat
  path : String
  stamp : Int
deriving DecidableEq

/-- First mapping whose inode number matches. -/
def findPathByInode : List InodeEntry → Nat → Option String
  | [], _ => none
  | m :: rest, ino => if m.inode = ino then some m.path else findPathByInode rest ino

/-- First mapping whose path matches. -/
def findInodeByPath : List InodeEntry → String → Option Nat
  | [], _ => none
  | m :: rest, p => if m.path = p then some m.inode else findInodeByPath rest p

/-- Increment a per-inode reference count (allocating the slot on demand). -/
def bumpRef : List (Nat × Nat) → Nat → List (Nat × Nat)
  | [], ino => [(ino, 1)]
  | (i, c) :: rest, ino =>
    if i = ino then (i, c + 1) :: rest else (i, c) :: bumpRef rest ino

/-- Modelled from the spec: the `InodeToPath` table (§4.2, not in the provided
sources): live inode-to-path mappings, per-inode reference counts, and a
monotonically increasing allocation counter that stays above every live
inode number. -/
structure InodeToPath where
  mappings : List InodeEntry
  refCounts : List (Nat × Nat)
  nextInode : Nat
deriving DecidableEq

/-- Modelled from the spec: `InodeToPath.GetPath` (§4.2) — "path, or NotFound
if the inode has been reclaimed or never allocated". -/
def InodeToPath.GetPath (t : InodeToPath) (ino : Nat) : Option String :=
  findPathByInode t.mappings ino

/-- Modelled from the spec: `InodeToPath.Lookup` (§4.2).  A mapped path keeps
its number and gains a reference; an unmapped path fails when
`createIfMissing` is false; a nonzero unclaimed hint is adopted; otherwise a
fresh number comes from the monotonically increasing counter. -/
def InodeToPath.Lookup (t : InodeToPath) (path : String) (ts : Int)
    (isDirectory isHardlink : Bool) (inodeHint : Nat) (createIfMissing : Bool) :
    Option Nat × InodeToPath :=
  match findInodeByPath t.mappings path with
  | some ino => (some ino, { t with refCounts := bumpRef t.refCounts ino })
  | none =>
    if createIfMissing = false then (none, t)
    else if inodeHint ≠ 0 ∧ findPathByInode t.mappings inodeHint = none then
      (some inodeHint,
        { t with mappings := ⟨inodeHint, path, ts⟩ :: t.mappings,
                 refCounts := bumpRef t.refCounts inodeHint })
    else
      (some t.nextInode,
        { t with mappings := ⟨t.nextInode, path, ts⟩ :: t.mappings,
                 refCounts := bumpRef t.refCounts t.nextInode,
                 nextInode := t.nextInode + 1 })

/-- Modelled from the spec: `checkName` (weed/mount/weedfs.go, not in the
provided sources) — "invalid names (reserved characters, empty names) ...
map to an invalid-argument status" (§6, §7). -/
def checkName (name : String) : Status :=
  if name = "" then Status.EINVAL
  else if name.data.contains '/' then Status.EINVAL
  else Status.OK

/-- State of the mounted filesystem client (`WFS`), restricted to what the
verified slice touches.  `limiterTokens` is the concurrency limiter's
currently available capacity (§4.5): `WaitN(ctx, 1)` consumes one unit, so an
operation can run only from a state with at least one unit available.
`remote` is the metadata authority's store keyed by full path, and
`remoteCalls` counts attempted remote mutations; `remoteCreateFails` is the
oracle for the outcome of a remote `CreateEntry` round trip. -/
structure WFS where
  IsOverQuota : Bool
  limiterTokens : Nat
  inodeToPath : InodeToPath
  metaCache : List (String × Entry)
  remote : List (String × PbEntry)
  remoteCalls : Nat
  remoteCreateFails : Bool
  signature : Int
deriving DecidableEq

/-- Go `func (wfs *WFS) Symlink(cancel, header, target, name, out)`
(weed/mount/weedfs_symlink.go:17-73).  The caller identity `uid`/`gid` and
the parent `nodeId` stand for the `header` fields; `now` stands for
`time.Now().Unix()`; the returned triple is (status, state, `out` payload as
inode number and created wire entry).  `wfs.concurrentOpLimit.WaitN(ctx, 1)`
consumes one limiter unit; the uid/gid mapper of
`mapPbIdFromLocalToFiler`/`mapPbIdFromFilerToLocal` is modelled as the
identity (the default mapping). -/
def WFS.Symlink (wfs : WFS) (uid gid : Nat) (nodeId : Nat) (target name : String)
    (now : Int) : Status × WFS × Option (Nat × PbEntry) :=
  let wfs := { wfs with limiterTokens := wfs.limiterTokens - 1 }
  if wfs.IsOverQuota then (Status.ENOSPC, wfs, none)
  else if checkName name ≠ Status.OK then (checkName name, wfs, none)
  else
    match wfs.inodeToPath.GetPath nodeId with
    | none => (Status.ENOENT, wfs, none)
    | some dirPath =>
      let entryFullPath := NewFullPath dirPath name
      let reqEntry : PbEntry :=
        { PbEntry.zero with
          Name := name,
          IsDirectory := false,
          Attributes := some
            { FuseAttributes.zero with
              Mtime := now, Crtime := now,
              FileMode := 511 ||| ModeSymlink,
              Uid := uid, Gid := gid,
              SymlinkTarget := target } }
      let wfs := { wfs with remoteCalls := wfs.remoteCalls + 1 }
      if wfs.remoteCreateFails then (Status.EIO, wfs, none)
      else
        let wfs := { wfs with
          remote := insertAssoc wfs.remote entryFullPath reqEntry,
          metaCache := insertAssoc wfs.metaCache entryFullPath
            (FromPbEntry dirPath reqEntry) }
        let r := wfs.inodeToPath.Lookup entryFullPath now false false 0 true
        let inode := r.1.getD 0
        let wfs := { wfs with inodeToPath := r.2 }
        (Status.OK, wfs, some (inode, reqEntry))

/-- Modelled from the spec: `wfs.maybeLoadEntry` (weed/mount/weedfs.go, not in
the provided sources) — answer from the meta cache when possible, otherwise
fall through to the remote authority and populate the cache (§4.3). -/
def WFS.maybeLoadEntry (wfs : WFS) (path : String) : Option PbEntry × WFS :=
  match lookupAssoc wfs.metaCache path with
  | some cached => (Entry.ToProtoEntry (some cached), wfs)
  | none =>
    match lookupAssoc wfs.remote path with
    | some pbEntry =>
      (some pbEntry,
        { wfs with
          metaCache := insertAssoc wfs.metaCache path
            (FromPbEntry (DirAndName path).1 pbEntry),
          remoteCalls := wfs.remoteCalls + 1 })
    | none => (none, { wfs with remoteCalls := wfs.remoteCalls + 1 })

/-- Go `func (wfs *WFS) Readlink(cancel, header)`
(weed/mount/weedfs_symlink.go:75-92): the returned triple is (`out` byte
payload as an optional string, status, state). -/
def WFS.Readlink (wfs : WFS) (nodeId : Nat) : Option String × Status × WFS :=
  let wfs := { wfs with limiterTokens := wfs.limiterTokens - 1 }
  match wfs.inodeToPath.GetPath nodeId with
  | none => (none, Status.ENOENT, wfs)
  | some entryFullPath =>
    match wfs.maybeLoadEntry entryFullPath with
    | (none, wfs2) => (none, Status.ENOENT, wfs2)
    | (some entry, wfs2) =>
      if (entry.Attributes.getD FuseAttributes.zero).FileMode &&& ModeSymlink = 0 then
        (none, Status.EINVAL, wfs2)
      else
        (some (entry.Attributes.getD FuseAttributes.zero).SymlinkTarget,
          Status.OK, wfs2)

/-! Helper lemmas for the xattr round trips. -/

theorem length_BytesToHumanReadable_ne_zero (n : Nat) :
    (BytesToHumanReadable n).length ≠ 0 := by
  simp [BytesToHumanReadable]

theorem length_formatDecimal_ne_zero (n : Nat) : (formatDecimal n).length ≠ 0 := by
  simp only [ne_eq, List.length_eq_zero]
  exact formatDecimal_ne_nil n

theorem getXAttrSize_setXAttrSize (entry : Entry) (b : Int) :
    (entry.SetXAttrSize b).GetXAttrSize = (if b < 0 then (0 : Int) else b).toNat := by
  unfold Entry.SetXAttrSize Entry.GetXAttrSize Entry.xattrVal
  simp only [Option.getD_some, lookupAssoc_insertAssoc_self]
  rw [if_neg (length_BytesToHumanReadable_ne_zero _), ParseBytes_BytesToHumanReadable]

theorem getXAttrSizeQuota_setXAttrSizeQuota (entry : Entry) (b : Int) :
    (entry.SetXAttrSizeQuota b).GetXAttrSizeQuota = (if b < 0 then (0 : Int) else b).toNat := by
  unfold Entry.SetXAttrSizeQuota Entry.GetXAttrSizeQuota Entry.xattrVal
  simp only [Option.getD_some, lookupAssoc_insertAssoc_self]
  rw [if_neg (length_BytesToHumanReadable_ne_zero _), ParseBytes_BytesToHumanReadable]

theorem getXAttrInodeCount_setXAttrInodeCount (entry : Entry) (b : Int) (h : b < 2 ^ 63) :
    (entry.SetXAttrInodeCount b).GetXAttrInodeCount = (if b < 0 then (0 : Int) else b).toNat := by
  unfold Entry.SetXAttrInodeCount Entry.GetXAttrInodeCount Entry.xattrVal
  have hlt : (if b < 0 then (0 : Int) else b).toNat < 2 ^ 63 := by omega
  simp only [Option.getD_some, lookupAssoc_insertAssoc_self]
  rw [if_neg (length_formatDecimal_ne_zero _), goAtoi_formatDecimal _ hlt]
  omega

theorem getXAttrInodeQuota_setXAttrInodeCountQuota (entry : Entry) (b : Int) (h : b < 2 ^ 63) :
    (entry.SetXAttrInodeCountQuota b).GetXAttrInodeQuota = (if b < 0 then (0 : Int) else b).toNat := by
  unfold Entry.SetXAttrInodeCountQuota Entry.GetXAttrInodeQuota Entry.xattrVal
  have hlt : (if b < 0 then (0 : Int) else b).toNat < 2 ^ 63 := by omega
  simp only [Option.getD_some, lookupAssoc_insertAssoc_self]
  rw [if_neg (length_formatDecimal_ne_zero _), goAtoi_formatDecimal _ hlt]
  omega

/-! Claim theorems. -/

/-- C1: for every `Entry`, `Size()` returns the maximum of the total size of
its chunk list, its declared `FileSize` attribute, and the length of its
inline `Content` bytes (weed/filer/entry.go:61-63,228-233). -/
theorem size_eq_max_of_chunks_filesize_content (entry : Entry) :
    entry.Size =
      max (TotalSize entry.Chunks) (max entry.Attr.FileSize entry.Content.length) := by
  unfold Entry.Size maxUint64
  split_ifs <;> omega

/-- Statement of claim C2 for one entry and one signed 64-bit input: every
xattr size/inode-count setter clamps a negative input to zero, and the
set-then-get round trip returns exactly `max b 0`. -/
def xattrClampRoundTrip (entry : Entry) (b : Int) : Prop :=
  (b < 0 →
    entry.SetXAttrSize b = entry.SetXAttrSize 0
    ∧ entry.SetXAttrSizeQuota b = entry.SetXAttrSizeQuota 0
    ∧ entry.SetXAttrInodeCount b = entry.SetXAttrInodeCount 0
    ∧ entry.SetXAttrInodeCountQuota b = entry.SetXAttrInodeCountQuota 0)
  ∧ (entry.SetXAttrSize b).GetXAttrSize = (max b 0).toNat
  ∧ (entry.SetXAttrSizeQuota b).GetXAttrSizeQuota = (max b 0).toNat
  ∧ (entry.SetXAttrInodeCount b).GetXAttrInodeCount = (max b 0).toNat
  ∧ (entry.SetXAttrInodeCountQuota b).GetXAttrInodeQuota = (max b 0).toNat

/-- C2: for every `Entry` and signed 64-bit `b`, each xattr size/inode-count
setter clamps a negative `b` to zero and the setter/getter round trip returns
exactly `max b 0` (weed/filer/entry.go:65-146). -/
theorem xattr_setters_clamp_and_round_trip (entry : Entry) (b : Int)
    (h1 : -(2 ^ 63) ≤ b) (h2 : b < 2 ^ 63) : xattrClampRoundTrip entry b := by
  refine ⟨fun hneg => ?_, ?_, ?_, ?_, ?_⟩
  · rw [show b = b from rfl] at hneg
    refine ⟨?_, ?_, ?_, ?_⟩ <;>
      simp only [Entry.SetXAttrSize, Entry.SetXAttrSizeQuota,
        Entry.SetXAttrInodeCount, Entry.SetXAttrInodeCountQuota,
        if_pos hneg] <;>
      norm_num
  · rw [getXAttrSize_setXAttrSize]
    omega
  · rw [getXAttrSizeQuota_setXAttrSizeQuota]
    omega
  · rw [getXAttrInodeCount_setXAttrInodeCount entry b h2]
    omega
  · rw [getXAttrInodeQuota_setXAttrInodeCountQuota entry b h2]
    omega

/-- Witness for C2 at a concrete entry and the concrete negative input -7. -/
theorem xattr_setters_clamp_and_round_trip_witness :
    xattrClampRoundTrip Entry.zero (-7) :=
  xattr_setters_clamp_and_round_trip Entry.zero (-7) (by decide) (by decide)

/-- C9: calling `ShallowClone`, `ToProtoEntry`, `ToExistingProtoEntry`, or
`ToProtoFullEntry` on a nil `Entry` is safe: the first three return nil /
leave the message untouched, the last returns nil
(weed/filer/entry.go:156-219). -/
theorem nil_entry_conversions_are_safe :
    Entry.ShallowClone none = none
    ∧ Entry.ToProtoEntry none = none
    ∧ (∀ message : PbEntry, Entry.ToExistingProtoEntry none message = message)
    ∧ Entry.ToProtoFullEntry none = none :=
  ⟨rfl, rfl, fun _ => rfl, rfl⟩

/-- Statement of claim C5: converting back from the wire form yields an entry
whose hard-link id, hard-link counter, remote-entry pointer, and quota
counter equal the originals exactly. -/
def pbRoundTripExact (e : Entry) (dir : String) (m : PbEntry) : Prop :=
  (FromPbEntry dir m).HardLinkId = e.HardLinkId
  ∧ (FromPbEntry dir m).HardLinkCounter = e.HardLinkCounter
  ∧ (FromPbEntry dir m).Remote = e.Remote
  ∧ (FromPbEntry dir m).Quota = e.Quota

/-- C5: for every `Entry`, `ToProtoEntry` followed by `FromPbEntry` (with any
directory) restores the hard-link id, hard-link counter, remote-entry
pointer, and quota counter exactly (weed/filer/entry.go:174-226). -/
theorem pb_entry_round_trip (e : Entry) (dir : String) (m : PbEntry)
    (h : Entry.ToProtoEntry (some e) = some m) : pbRoundTripExact e dir m := by
  have hm : m = Entry.ToExistingProtoEntry (some e)
      { PbEntry.zero with Name := FullPathName e.FullPath } := by
    simpa [Entry.ToProtoEntry] using h.symm
  subst hm
  exact ⟨rfl, rfl, rfl, rfl⟩

/-- Sample entry for the C5 witness, with nontrivial values in all four
round-tripped fields. -/
def pbSampleEntry : Entry :=
  { Entry.zero with
    FullPath := "/dir/file",
    HardLinkId := [1, 2, 3],
    HardLinkCounter := 4,
    Remote := some { StorageName := "s3", LastLocalSyncTsNs := 9,
                     RemoteETag := "e", RemoteMtime := 8, RemoteSize := 7 },
    Quota := 42 }

/-- Wire form of the sample entry. -/
def pbSampleMessage : PbEntry :=
  (Entry.ToProtoEntry (some pbSampleEntry)).getD PbEntry.zero

/-- Witness for C5 at the concrete sample entry. -/
theorem pb_entry_round_trip_witness : pbRoundTripExact pbSampleEntry "/dir" pbSampleMessage :=
  pb_entry_round_trip pbSampleEntry "/dir" pbSampleMessage rfl

/-! Auxiliary facts about `goAtoi` and the mount operations. -/

theorem goAtoi_val_eq_zero_of_badInput (s : List Nat)
    (h : (goAtoi s).2 = GoError.badInput) : (goAtoi s).1 = 0 := by
  unfold goAtoi at h ⊢
  dsimp only at h ⊢
  split_ifs at h ⊢ <;> simp_all

theorem maybeLoadEntry_limiterTokens (wfs : WFS) (p : String) :
    (wfs.maybeLoadEntry p).2.limiterTokens = wfs.limiterTokens := by
  unfold WFS.maybeLoadEntry
  split
  · rfl
  · split <;> rfl

/-- Sample directory entry backing the concrete mount states. -/
def dirEntry : Entry :=
  { Entry.zero with
    FullPath := "/dir",
    Attr := { Attr.zero with Mode := ModeDir ||| 493, Uid := 1000, Gid := 1000 } }

/-- Wire form of the sample directory entry. -/
def dirPb : PbEntry := (Entry.ToProtoEntry (some dirEntry)).getD PbEntry.zero

/-- Concrete healthy mount state: inode 1 is `"/dir"`, the next free inode
number is 2, five limiter units are available, the remote authority is
reachable and under quota. -/
def mountInit : WFS :=
  { IsOverQuota := false,
    limiterTokens := 5,
    inodeToPath := { mappings := [⟨1, "/dir", 50⟩], refCounts := [(1, 1)],
                     nextInode := 2 },
    metaCache := [("/dir", dirEntry)],
    remote := [("/dir", dirPb)],
    remoteCalls := 0,
    remoteCreateFails := false,
    signature := 7 }

/-- The same mount state with the quota exhausted. -/
def overQuotaInit : WFS := { mountInit with IsOverQuota := true }

/-- C3 counterexample: on a successful `Symlink` the limiter's available
capacity after the operation returns is NOT equal to its capacity before —
`WaitN` consumed one unit at entry and no exit path releases it
(weed/mount/weedfs_symlink.go:18, no release call in the function). -/
theorem symlink_capacity_not_restored :
    (WFS.Symlink mountInit 1000 1000 1 "/dir/target" "link" 100).1 = Status.OK
    ∧ (WFS.Symlink mountInit 1000 1000 1 "/dir/target" "link" 100).2.1.limiterTokens
        ≠ mountInit.limiterTokens := by
  decide

/-- C3 (amended): `Symlink` and `Readlink` each consume weight 1 from the
concurrency limiter at entry and never release it on any exit path; the
available capacity after the operation returns is one less than before. -/
theorem symlink_readlink_consume_one_unit (wfs : WFS) (uid gid nodeId : Nat)
    (target name : String) (now : Int) (h : 1 ≤ wfs.limiterTokens) :
    (WFS.Symlink wfs uid gid nodeId target name now).2.1.limiterTokens
        = wfs.limiterTokens - 1
    ∧ (WFS.Readlink wfs nodeId).2.2.limiterTokens = wfs.limiterTokens - 1 := by
  constructor
  · unfold WFS.Symlink
    dsimp only
    split
    · rfl
    · split
      · rfl
      · split
        · rfl
        · split
          · rfl
          · rfl
  · unfold WFS.Readlink
    dsimp only
    split
    · rfl
    · rename_i path _
      have hm := maybeLoadEntry_limiterTokens
        { wfs with limiterTokens := wfs.limiterTokens - 1 } path
      split
      · rename_i wfs2 heq
        rw [heq] at hm
        exact hm
      · rename_i entry wfs2 heq
        rw [heq] at hm
        split
        · exact hm
        · exact hm

/-- Witness for the amended C3 at the concrete mount state. -/
theorem symlink_readlink_consume_one_unit_witness :
    (WFS.Symlink mountInit 1000 1000 1 "/dir/target" "link" 100).2.1.limiterTokens
        = mountInit.limiterTokens - 1
    ∧ (WFS.Readlink mountInit 1).2.2.limiterTokens = mountInit.limiterTokens - 1 :=
  symlink_readlink_consume_one_unit mountInit 1000 1000 1 "/dir/target" "link" 100
    (by decide)

/-- C8: a `Symlink` call made while the mount is over quota returns ENOSPC
and changes nothing but the consumed limiter unit — the remote entry is not
created, no remote call is attempted, and the metadata cache and inode table
are untouched (weed/mount/weedfs_symlink.go:20-22). -/
theorem symlink_over_quota_enospc (wfs : WFS) (uid gid nodeId : Nat)
    (target name : String) (now : Int) (h : wfs.IsOverQuota = true) :
    WFS.Symlink wfs uid gid nodeId target name now =
      (Status.ENOSPC, { wfs with limiterTokens := wfs.limiterTokens - 1 }, none)
    ∧ (WFS.Symlink wfs uid gid nodeId target name now).2.1.metaCache = wfs.metaCache
    ∧ (WFS.Symlink wfs uid gid nodeId target name now).2.1.remote = wfs.remote
    ∧ (WFS.Symlink wfs uid gid nodeId target name now).2.1.remoteCalls = wfs.remoteCalls
    ∧ (WFS.Symlink wfs uid gid nodeId target name now).2.1.inodeToPath = wfs.inodeToPath := by
  unfold WFS.Symlink
  simp [h]

/-- Witness for C8 at the concrete over-quota state. -/
theorem symlink_over_quota_enospc_witness :
    WFS.Symlink overQuotaInit 1000 1000 1 "/dir/target" "link" 100 =
      (Status.ENOSPC,
        { overQuotaInit with limiterTokens := overQuotaInit.limiterTokens - 1 }, none)
    ∧ (WFS.Symlink overQuotaInit 1000 1000 1 "/dir/target" "link" 100).2.1.metaCache
        = overQuotaInit.metaCache
    ∧ (WFS.Symlink overQuotaInit 1000 1000 1 "/dir/target" "link" 100).2.1.remote
        = overQuotaInit.remote
    ∧ (WFS.Symlink overQuotaInit 1000 1000 1 "/dir/target" "link" 100).2.1.remoteCalls
        = overQuotaInit.remoteCalls
    ∧ (WFS.Symlink overQuotaInit 1000 1000 1 "/dir/target" "link" 100).2.1.inodeToPath
        = overQuotaInit.inodeToPath :=
  symlink_over_quota_enospc overQuotaInit 1000 1000 1 "/dir/target" "link" 100 rfl

/-- C7 counterexample: a `Symlink` call with an invalid (empty) name made
while the mount is over quota returns ENOSPC, not the invalid-argument
status — the quota check at weed/mount/weedfs_symlink.go:20-22 precedes the
name check at lines 23-25. -/
theorem symlink_invalid_name_can_return_enospc :
    checkName "" ≠ Status.OK
    ∧ (WFS.Symlink overQuotaInit 1000 1000 1 "/dir/target" "" 100).1 = Status.ENOSPC
    ∧ (WFS.Symlink overQuotaInit 1000 1000 1 "/dir/target" "" 100).1 ≠ Status.EINVAL := by
  decide

/-- C7 (amended): when the mount is not over quota, a `Symlink` call with an
invalid name returns EINVAL with no remote call attempted and the metadata
cache, remote store and inode table unchanged; only the limiter unit is
consumed (weed/mount/weedfs_symlink.go:23-25). -/
theorem symlink_invalid_name_einval (wfs : WFS) (uid gid nodeId : Nat)
    (target name : String) (now : Int)
    (hq : wfs.IsOverQuota = false) (hn : checkName name ≠ Status.OK) :
    WFS.Symlink wfs uid gid nodeId target name now =
      (Status.EINVAL, { wfs with limiterTokens := wfs.limiterTokens - 1 }, none)
    ∧ (WFS.Symlink wfs uid gid nodeId target name now).2.1.metaCache = wfs.metaCache
    ∧ (WFS.Symlink wfs uid gid nodeId target name now).2.1.remote = wfs.remote
    ∧ (WFS.Symlink wfs uid gid nodeId target name now).2.1.remoteCalls = wfs.remoteCalls
    ∧ (WFS.Symlink wfs uid gid nodeId target name now).2.1.inodeToPath = wfs.inodeToPath := by
  have he : checkName name = Status.EINVAL := by
    unfold checkName at hn ⊢
    split_ifs at hn ⊢ <;> simp_all
  unfold WFS.Symlink
  simp [hq, hn, he]

/-- Witness for the amended C7: empty name, healthy state. -/
theorem symlink_invalid_name_einval_witness :
    WFS.Symlink mountInit 1000 1000 1 "/dir/target" "" 100 =
      (Status.EINVAL, { mountInit with limiterTokens := mountInit.limiterTokens - 1 }, none)
    ∧ (WFS.Symlink mountInit 1000 1000 1 "/dir/target" "" 100).2.1.metaCache
        = mountInit.metaCache
    ∧ (WFS.Symlink mountInit 1000 1000 1 "/dir/target" "" 100).2.1.remote
        = mountInit.remote
    ∧ (WFS.Symlink mountInit 1000 1000 1 "/dir/target" "" 100).2.1.remoteCalls
        = mountInit.remoteCalls
    ∧ (WFS.Symlink mountInit 1000 1000 1 "/dir/target" "" 100).2.1.inodeToPath
        = mountInit.inodeToPath :=
  symlink_invalid_name_einval mountInit 1000 1000 1 "/dir/target" "" 100 rfl
    (by decide)

/-- Entry whose reserved inode-count xattr is the decimal text
`"9223372036854775808"` (the value `2 ^ 63`, one past the largest signed
64-bit integer), which `strconv.Atoi` fails to decode with a range error. -/
def overflowInodeEntry : Entry :=
  { Entry.zero with
    Extended := some [("xattr-inode",
      [57, 50, 50, 51, 51, 55, 50, 48, 51, 54, 56, 53, 52, 55, 55, 53, 56, 48, 56])] }

/-- C6 counterexample: on that entry the reserved inode-count value fails to
decode, yet `GetXAttrInodeCount` returns the clamped boundary value
`2 ^ 63 - 1`, not zero — `strconv.Atoi` returns the clamped value on a range
error and weed/filer/entry.go:103 discards the error. -/
theorem inode_getter_nonzero_on_range_error :
    (goAtoi (overflowInodeEntry.xattrVal "xattr-inode")).2 = GoError.outOfRange
    ∧ overflowInodeEntry.GetXAttrInodeCount = 2 ^ 63 - 1
    ∧ overflowInodeEntry.GetXAttrInodeCount ≠ 0 := by
  decide

/-- C6 (amended): no getter propagates a parse error (they are total and
return a plain number); the size getters return zero on any decode failure,
and the inode-count getters return zero on a syntactic decode failure — but
an out-of-range decimal makes the inode-count getters return the clamped
boundary value instead of zero (weed/filer/entry.go:65-76,98-105,126-146). -/
theorem xattr_getters_zero_on_decode_failure (entry : Entry)
    (h1 : ParseBytes (entry.xattrVal "xattr-size") = none)
    (h2 : ParseBytes (entry.xattrVal "xattr-quota-size") = none)
    (h3 : (goAtoi (entry.xattrVal "xattr-inode")).2 = GoError.badInput)
    (h4 : (goAtoi (entry.xattrVal "xattr-quota-inode")).2 = GoError.badInput) :
    entry.GetXAttrSize = 0
    ∧ entry.GetXAttrSizeQuota = 0
    ∧ entry.GetXAttrInodeCount = 0
    ∧ entry.GetXAttrInodeQuota = 0 := by
  refine ⟨?_, ?_, ?_, ?_⟩
  · unfold Entry.GetXAttrSize
    dsimp only
    split
    · rfl
    · rw [h1]
  · unfold Entry.GetXAttrSizeQuota
    dsimp only
    split
    · rfl
    · rw [h2]
  · unfold Entry.GetXAttrInodeCount
    dsimp only
    split
    · rfl
    · rw [goAtoi_val_eq_zero_of_badInput _ h3]
      rfl
  · unfold Entry.GetXAttrInodeQuota
    dsimp only
    split
    · rfl
    · rw [goAtoi_val_eq_zero_of_badInput _ h4]
      rfl

/-- Entry whose four reserved quota xattrs all hold the single byte `"x"`,
malformed for both the byte-size and the decimal decoders. -/
def malformedXattrEntry : Entry :=
  { Entry.zero with
    Extended := some [("xattr-size", [120]), ("xattr-quota-size", [120]),
                      ("xattr-inode", [120]), ("xattr-quota-inode", [120])] }

/-- Witness for the amended C6 at the concrete malformed entry. -/
theorem xattr_getters_zero_on_decode_failure_witness :
    malformedXattrEntry.GetXAttrSize = 0
    ∧ malformedXattrEntry.GetXAttrSizeQuota = 0
    ∧ malformedXattrEntry.GetXAttrInodeCount = 0
    ∧ malformedXattrEntry.GetXAttrInodeQuota = 0 :=
  xattr_getters_zero_on_decode_failure malformedXattrEntry (by decide) (by decide)
    (by decide) (by decide)

/-- C10: a `Readlink` call whose resolved entry exists but whose mode bits do
not include the symlink marker returns EINVAL and a nil byte payload
(weed/mount/weedfs_symlink.go:87-89). -/
theorem readlink_non_symlink_einval (wfs : WFS) (nodeId : Nat) (path : String)
    (entry : PbEntry) (wfs2 : WFS)
    (h1 : wfs.inodeToPath.GetPath nodeId = some path)
    (h2 : WFS.maybeLoadEntry { wfs with limiterTokens := wfs.limiterTokens - 1 } path
        = (some entry, wfs2))
    (h3 : (entry.Attributes.getD FuseAttributes.zero).FileMode &&& ModeSymlink = 0) :
    WFS.Readlink wfs nodeId = (none, Status.EINVAL, wfs2) := by
  unfold WFS.Readlink
  dsimp only
  rw [show ({ wfs with limiterTokens := wfs.limiterTokens - 1 } : WFS).inodeToPath
      = wfs.inodeToPath from rfl, h1]
  dsimp only
  rw [h2]
  dsimp only
  rw [if_pos h3]

/-- Regular (non-symlink) file entry backing the C10 witness, mode 0644. -/
def plainFileEntry : Entry :=
  { Entry.zero with
    FullPath := "/dir/plain",
    Attr := { Attr.zero with Mode := 420, Uid := 1000, Gid := 1000 } }

/-- Concrete mount state where inode 1 resolves to the regular file. -/
def plainFileInit : WFS :=
  { mountInit with
    inodeToPath := { mappings := [⟨1, "/dir/plain", 50⟩], refCounts := [(1, 1)],
                     nextInode := 2 },
    metaCache := [("/dir/plain", plainFileEntry)] }

/-- The C10 witness state after the limiter admission. -/
def plainFileAdmitted : WFS :=
  { plainFileInit with limiterTokens := plainFileInit.limiterTokens - 1 }

/-- Loaded wire entry of the C10 witness. -/
def plainFilePb : PbEntry :=
  ((plainFileAdmitted.maybeLoadEntry "/dir/plain").1).getD PbEntry.zero

/-- Post-state of the C10 witness load. -/
def plainFileLoaded : WFS := (plainFileAdmitted.maybeLoadEntry "/dir/plain").2

/-- Witness for C10 at the concrete regular-file state. -/
theorem readlink_non_symlink_einval_witness :
    WFS.Readlink plainFileInit 1 = (none, Status.EINVAL, plainFileLoaded) :=
  readlink_non_symlink_einval plainFileInit 1 "/dir/plain" plainFilePb
    plainFileLoaded (by decide) rfl (by decide)

/-- Statement of claim C4 from a state `wfs` whose inode `dirIno` resolves to
`"/dir"`: creating the symlink `"link"` under `"/dir"` with target
`"/dir/target"` and caller uid 1000 succeeds; the created wire entry carries
the symlink mode bit, the exact target and owner uid 1000; its inode number
differs from every inode currently mapped to a different path; and a
subsequent `Readlink` on that inode returns exactly `"/dir/target"` with
status OK. -/
def symlinkScenario (wfs : WFS) (dirIno : Nat) (now : Int) : Prop :=
  let r := WFS.Symlink wfs 1000 1000 dirIno "/dir/target" "link" now
  r.1 = Status.OK
  ∧ ∃ ino pbe, r.2.2 = some (ino, pbe)
      ∧ (pbe.Attributes.getD FuseAttributes.zero).FileMode &&& ModeSymlink ≠ 0
      ∧ (pbe.Attributes.getD FuseAttributes.zero).SymlinkTarget = "/dir/target"
      ∧ (pbe.Attributes.getD FuseAttributes.zero).Uid = 1000
      ∧ (∀ m ∈ wfs.inodeToPath.mappings, m.path ≠ "/dir/link" → m.inode ≠ ino)
      ∧ (WFS.Readlink r.2.1 ino).1 = some "/dir/target"
      ∧ (WFS.Readlink r.2.1 ino).2.1 = Status.OK

/-- C4: the end-to-end symlink-then-readlink scenario holds from every state
that is under quota, has a reachable remote, resolves `dirIno` to `"/dir"`,
has no mapping for `"/dir/link"` yet, and whose inode allocation counter is
above every live inode (the allocator invariant of §4.2)
(weed/mount/weedfs_symlink.go:17-92). -/
theorem symlink_then_readlink_scenario (wfs : WFS) (dirIno : Nat) (now : Int)
    (hq : wfs.IsOverQuota = false)
    (hr : wfs.remoteCreateFails = false)
    (hd : wfs.inodeToPath.GetPath dirIno = some "/dir")
    (hnm : findInodeByPath wfs.inodeToPath.mappings "/dir/link" = none)
    (hinv : ∀ m ∈ wfs.inodeToPath.mappings, m.inode < wfs.inodeToPath.nextInode) :
    symlinkScenario wfs dirIno now := by
  unfold symlinkScenario WFS.Symlink
  dsimp only
  rw [hq, hd]
  rw [show checkName "link" = Status.OK from rfl]
  dsimp only
  rw [hr]
  rw [show NewFullPath "/dir" "link" = "/dir/link" from rfl]
  unfold InodeToPath.Lookup
  rw [hnm]
  simp only [Bool.false_eq_true, Bool.true_eq_false, ne_eq, eq_self_iff_true,
    not_true, false_and, if_false, ite_false, ite_true]
  refine ⟨trivial, wfs.inodeToPath.nextInode, _, rfl,
    (show (511 ||| ModeSymlink) &&& ModeSymlink ≠ 0 by decide), rfl, rfl, ?_, ?_, ?_⟩
  · intro m hm _
    exact Nat.ne_of_lt (hinv m hm)
  · unfold WFS.Readlink
    dsimp only
    unfold InodeToPath.GetPath findPathByInode
    dsimp only
    rw [if_pos rfl]
    unfold WFS.maybeLoadEntry
    dsimp only
    rw [lookupAssoc_insertAssoc_self]
    dsimp only [Entry.ToProtoEntry, Entry.ToExistingProtoEntry, EntryAttributeToPb,
      FromPbEntry, FromPbEntryToExistingEntry, PbToEntryAttribute, Option.getD]
    rw [if_neg (show ¬ (511 ||| ModeSymlink) &&& ModeSymlink = 0 by decide)]
  · unfold WFS.Readlink
    dsimp only
    unfold InodeToPath.GetPath findPathByInode
    dsimp only
    rw [if_pos rfl]
    unfold WFS.maybeLoadEntry
    dsimp only
    rw [lookupAssoc_insertAssoc_self]
    dsimp only [Entry.ToProtoEntry, Entry.ToExistingProtoEntry, EntryAttributeToPb,
      FromPbEntry, FromPbEntryToExistingEntry, PbToEntryAttribute, Option.getD]
    rw [if_neg (show ¬ (511 ||| ModeSymlink) &&& ModeSymlink = 0 by decide)]


/-- Witness for C4 at the concrete mount state. -/
theorem symlink_then_readlink_scenario_witness : symlinkScenario mountInit 1 100 :=
  symlink_then_readlink_scenario mountInit 1 100 rfl rfl (by decide) (by decide)
    (by decide)

end Seaweed
